import Mathlib

/-!
Shallow embedding of `src/http.client.ts` (node-http-connector).

The TypeScript `HttpClient` class composes a base URL, default headers,
an auth token, request/response interceptor chains, a retry count and a
per-attempt timeout into `request` / `get` / `post` / `put` / `delete`
plus single-attempt `upload` and `download` operations.

External collaborators (the network transport `fetch` and the JSON codec
`JSON.stringify` / `response.json()`) are modelled as explicit function
parameters: the transport is an oracle mapping the attempt index to a
network outcome, and the codec is a pair of functions.  Timers
(`setTimeout` / `clearTimeout`) are modelled by an event log recording,
in program order, every arm and disarm of an attempt timer.
-/

/-- JSON-like dynamic values, standing in for TypeScript `any` data. -/
inductive JVal where
  | jnull : JVal
  | jbool : Bool → JVal
  | jnum : Int → JVal
  | jstr : String → JVal
  | jarr : List JVal → JVal
  | jobj : List (String × JVal) → JVal
deriving Repr

/-- JavaScript truthiness of a `JVal`, as used by `data ? ... : ...` and
similar conditions in the source: `null`, `false`, `0` and `""` are falsy,
arrays and objects are always truthy. -/
def JVal.truthy : JVal → Bool
  | .jnull => false
  | .jbool b => b
  | .jnum n => n != 0
  | .jstr s => s != ""
  | .jarr _ => true
  | .jobj _ => true

/-- JavaScript truthiness of the nullable string fields of the client
(`authToken`, `config.credentials`): absent and empty strings are falsy. -/
def truthyStr : Option String → Bool
  | none => false
  | some s => s != ""

/-- Headers are modelled as JavaScript objects: association lists with
unique keys, in insertion order. -/
abbrev HeaderMap := List (String × String)

/-- Whether a header object already has key `k`. -/
def hasKey : HeaderMap → String → Bool
  | [], _ => false
  | p :: rest, k => p.1 == k || hasKey rest k

/-- JavaScript property write `obj[k] = v`: updates the value in place if
the key exists (keeping its position), otherwise appends the new entry. -/
def setHeader (hs : HeaderMap) (k v : String) : HeaderMap :=
  if hasKey hs k then hs.map (fun p => if p.1 = k then (k, v) else p)
  else hs ++ [(k, v)]

/-- JavaScript property read `obj[k]`: the value at the first entry whose
key is `k`, if any. -/
def getHeader : HeaderMap → String → Option String
  | [], _ => none
  | p :: rest, k => if p.1 = k then some p.2 else getHeader rest k

/-- JavaScript object spread `{...base, ...extra}`: each entry of `extra`
is written over `base` in order, later keys winning. -/
def mergeSpread (base extra : HeaderMap) : HeaderMap :=
  extra.foldl (fun acc p => setHeader acc p.1 p.2) base

/-- Uploaded file: name and raw content bytes (the `File` argument of
`upload`). -/
structure JFile where
  name : String
  bytes : List Nat
deriving Repr, DecidableEq

/-- Body of a dispatched request: `null`, a string (JSON-serialized data),
or multipart form data as built by `upload`. -/
inductive ReqBody where
  | null : ReqBody
  | str : String → ReqBody
  | form : List (String × JFile) → ReqBody
deriving Repr, DecidableEq

/-- The `RequestInit` request descriptor dispatched to the transport:
method, headers, body, credentials policy and the abort signal, the latter
modelled as the index of the attempt whose controller armed it. -/
structure RequestInit where
  method : String
  headers : HeaderMap
  body : ReqBody
  credentials : String
  signal : Option Nat
deriving Repr, DecidableEq

/-- A completed network response as surfaced by the transport: status,
status text, final URL, headers and the raw body bytes. -/
structure NetResponse where
  status : Nat
  statusText : String
  url : String
  headers : HeaderMap
  bodyBytes : List Nat
deriving Repr, DecidableEq

/-- The `response.ok` flag of the fetch API: status in the inclusive
success range 200–299. -/
def NetResponse.ok (r : NetResponse) : Bool :=
  200 ≤ r.status && r.status ≤ 299

/-- Outcome of one transport invocation: either the transport raises
(network failure or timeout abort, carrying its native error message), or
a response completes. -/
inductive FetchResult where
  | networkError : String → FetchResult
  | response : NetResponse → FetchResult

/-- The `HttpResponse` wrapper returned on success: decoded JSON body,
status code and header mapping. -/
structure HttpResponse where
  data : JVal
  status : Nat
  headers : HeaderMap
deriving Repr

/-- The `HttpError` value thrown by `handleError` for a non-success
status: status code, status text and request URL. -/
structure HttpError where
  status : Nat
  statusText : String
  url : String
deriving Repr, DecidableEq

/-- Every error that can be raised during one attempt: a transport error
passed through unmodified, a locally raised `HttpError`, or a JSON decode
failure from `response.json()`. -/
inductive HErr where
  | transport : String → HErr
  | http : HttpError → HErr
  | decode : HErr
deriving Repr, DecidableEq

/-- Timer events: arming (`setTimeout`) and disarming (`clearTimeout`) of
the abort timer of attempt `a`. -/
inductive TEvent where
  | set : Nat → TEvent
  | clear : Nat → TEvent
deriving Repr, DecidableEq

/-- The `HttpClient` instance state: constructor parameters plus the
fields set by the configuration methods (`setAuthToken`,
`setServiceSecret`, `enableLogging`, `enableResponseLogging`,
`addRequestInterceptor`, `addResponseInterceptor`). -/
structure HttpClient where
  baseURL : String
  timeout : Nat
  retries : Nat
  authToken : Option String
  serviceSecret : Option String
  requestInterceptors : List (RequestInit → RequestInit)
  responseInterceptors : List (NetResponse → NetResponse)
  loggingEnabled : Bool
  responseLoggingEnabled : Bool

/-- A freshly constructed client: `new HttpClient(baseURL, timeout,
retries)`, with the TypeScript field initializers. -/
def HttpClient.new (baseURL : String) (timeout retries : Nat) : HttpClient :=
  ⟨baseURL, timeout, retries, none, none, [], [], false, false⟩

/-- The chain `this.requestInterceptors.reduce((acc, i) => i(acc), config)`. -/
def HttpClient.applyRequestInterceptors (c : HttpClient)
    (config : RequestInit) : RequestInit :=
  c.requestInterceptors.foldl (fun acc i => i acc) config

/-- The chain `this.responseInterceptors.reduce((acc, i) => i(acc), response)`
(the response-logging console call is a pure side effect and is not
modelled). -/
def HttpClient.applyResponseInterceptors (c : HttpClient)
    (r : NetResponse) : NetResponse :=
  c.responseInterceptors.foldl (fun acc i => i acc) r

/-- `handleResponse`: decode the body as JSON (`response.json()`, which
throws on a non-decodable body) and wrap it with status and headers. -/
def HttpClient.handleResponse (parse : List Nat → Option JVal)
    (r : NetResponse) : Except HErr HttpResponse :=
  match parse r.bodyBytes with
  | some v => .ok ⟨v, r.status, r.headers⟩
  | none => .error .decode

/-- `handleError`: the `HttpError` thrown for a non-success status. -/
def HttpClient.handleError (r : NetResponse) : HErr :=
  .http ⟨r.status, r.statusText, r.url⟩

/-- The default-header construction of `request`: `Content-Type` merged
under the caller-supplied headers (caller values win), then, if the auth
token is truthy, `Authorization: Bearer <token>` written last. -/
def buildHeaders (authToken : Option String) (cfgHeaders : HeaderMap) :
    HeaderMap :=
  let h := mergeSpread [("Content-Type", "application/json")] cfgHeaders
  match authToken with
  | some t => if t = "" then h else setHeader h "Authorization" ("Bearer " ++ t)
  | none => h

/-- The header construction of `upload` and `download`: caller-supplied
headers only (no default content type), then the auth token header. -/
def plainHeaders (authToken : Option String) (cfgHeaders : HeaderMap) :
    HeaderMap :=
  let h := mergeSpread [] cfgHeaders
  match authToken with
  | some t => if t = "" then h else setHeader h "Authorization" ("Bearer " ++ t)
  | none => h

/-- Per-call configuration: the recognized options `headers` and
`credentials`. -/
structure CallConfig where
  headers : HeaderMap
  credentials : Option String

/-- The empty per-call configuration (`config = {}`). -/
def CallConfig.empty : CallConfig := ⟨[], none⟩

/-- `config.credentials || 'same-origin'`: the caller's credentials policy
when truthy, else the default. -/
def credOr (cred : Option String) : String :=
  if truthyStr cred then cred.getD "" else "same-origin"

/-- The initial request descriptor built by `request` before the
interceptor chain: method, default-plus-caller headers with auth token,
JSON body for truthy data and `null` otherwise, credentials policy. -/
def buildOptions (c : HttpClient) (stringify : JVal → String)
    (method : String) (data : JVal) (cfg : CallConfig) : RequestInit :=
  { method := method
    headers := buildHeaders c.authToken cfg.headers
    body := if data.truthy then .str (stringify data) else .null
    credentials := credOr cfg.credentials
    signal := none }

/-- One iteration body of the retry loop, at attempt index `a`: arm the
timer, call the transport, disarm on completion, apply the response
interceptors, classify the status and decode — any raised error reaches
the catch handler, which disarms the timer (again) and yields the error.
Returns the timer-event log of the attempt and its result. -/
def attemptRun (c : HttpClient) (parse : List Nat → Option JVal)
    (fetchO : Nat → FetchResult) (a : Nat) :
    List TEvent × Except HErr HttpResponse :=
  match fetchO a with
  | .networkError msg => ([.set a, .clear a], .error (.transport msg))
  | .response resp =>
    let r := c.applyResponseInterceptors resp
    if r.ok then
      match HttpClient.handleResponse parse r with
      | .ok hr => ([.set a, .clear a], .ok hr)
      | .error e => ([.set a, .clear a, .clear a], .error e)
    else ([.set a, .clear a, .clear a], .error (HttpClient.handleError r))

/-- Result of a whole run of the retry loop: cumulative timer-event log,
the list of attempted indices in order, and the outcome. -/
structure LoopResult where
  events : List TEvent
  trace : List Nat
  outcome : Option (Except HErr HttpResponse)

/-- The retry loop `for (attempt = 0; attempt < retries; attempt++)`,
with `n` iterations remaining and `a` the current attempt index: a
successful attempt returns immediately; a failed attempt retries while
iterations remain and re-raises its error on the last one; with no
iterations the loop falls through and the function resolves `undefined`
(outcome `none`). -/
def requestLoop (step : Nat → List TEvent × Except HErr HttpResponse) :
    Nat → Nat → LoopResult
  | 0, _ => ⟨[], [], none⟩
  | n + 1, a =>
    let (ev, res) := step a
    match res with
    | .ok r => ⟨ev, [a], some (.ok r)⟩
    | .error e =>
      if n = 0 then ⟨ev, [a], some (.error e)⟩
      else
        let rest := requestLoop step n (a + 1)
        ⟨ev ++ rest.events, a :: rest.trace, rest.outcome⟩

/-- Observable result of one `request` / `upload` call: the URL, the
descriptor dispatched to the transport (after the interceptor chain,
before the per-attempt `signal` assignment), the timer-event log, the
attempted indices, and the outcome — `none` models the promise resolving
with `undefined`, `some (.ok r)` a returned response, `some (.error e)` a
raised error. -/
structure RequestCall where
  url : String
  options : RequestInit
  events : List TEvent
  trace : List Nat
  outcome : Option (Except HErr HttpResponse)

/-- `HttpClient.request`: build the descriptor, pass it through the
request-interceptor chain, then run the retry loop against the transport
oracle `fetchO` with the JSON codec `stringify` / `parse`. -/
def HttpClient.request (c : HttpClient) (fetchO : Nat → FetchResult)
    (stringify : JVal → String) (parse : List Nat → Option JVal)
    (method endpoint : String) (data : JVal) (cfg : CallConfig) :
    RequestCall :=
  let url := c.baseURL ++ endpoint
  let options := c.applyRequestInterceptors (buildOptions c stringify method data cfg)
  let lr := requestLoop (attemptRun c parse fetchO) c.retries 0
  ⟨url, options, lr.events, lr.trace, lr.outcome⟩

/-- `get(endpoint, config)`: `request('GET', endpoint, null, config)`. -/
def HttpClient.get (c : HttpClient) (fetchO : Nat → FetchResult)
    (stringify : JVal → String) (parse : List Nat → Option JVal)
    (endpoint : String) (cfg : CallConfig) : RequestCall :=
  c.request fetchO stringify parse "GET" endpoint .jnull cfg

/-- `post(endpoint, data, config)`: `request('POST', endpoint, data, config)`. -/
def HttpClient.post (c : HttpClient) (fetchO : Nat → FetchResult)
    (stringify : JVal → String) (parse : List Nat → Option JVal)
    (endpoint : String) (data : JVal) (cfg : CallConfig) : RequestCall :=
  c.request fetchO stringify parse "POST" endpoint data cfg

/-- `put(endpoint, data, config)`: `request('PUT', endpoint, data, config)`. -/
def HttpClient.put (c : HttpClient) (fetchO : Nat → FetchResult)
    (stringify : JVal → String) (parse : List Nat → Option JVal)
    (endpoint : String) (data : JVal) (cfg : CallConfig) : RequestCall :=
  c.request fetchO stringify parse "PUT" endpoint data cfg

/-- `delete(endpoint, config)`: `request('DELETE', endpoint, null, config)`. -/
def HttpClient.delete (c : HttpClient) (fetchO : Nat → FetchResult)
    (stringify : JVal → String) (parse : List Nat → Option JVal)
    (endpoint : String) (cfg : CallConfig) : RequestCall :=
  c.request fetchO stringify parse "DELETE" endpoint .jnull cfg

/-- `HttpClient.upload`: multipart form body with the file under field
`"file"`, caller headers plus auth token, one timeout-guarded attempt with
no retry loop; any error is re-raised immediately. -/
def HttpClient.upload (c : HttpClient) (fetchO : Nat → FetchResult)
    (parse : List Nat → Option JVal) (endpoint : String) (file : JFile)
    (cfg : CallConfig) : RequestCall :=
  let url := c.baseURL ++ endpoint
  let options0 : RequestInit :=
    { method := "POST"
      headers := plainHeaders c.authToken cfg.headers
      body := .form [("file", file)]
      credentials := credOr cfg.credentials
      signal := none }
  let options := c.applyRequestInterceptors options0
  let (ev, res) := attemptRun c parse fetchO 0
  ⟨url, options, ev, [0], some res⟩

/-- Observable result of one `download` call: on success the raw body
bytes (`response.blob()`), otherwise the raised error. -/
structure DownloadCall where
  url : String
  options : RequestInit
  events : List TEvent
  trace : List Nat
  outcome : Except HErr (List Nat)

/-- `HttpClient.download`: GET with caller headers plus auth token and no
body, one timeout-guarded attempt with no retry loop; on success the raw
body bytes are returned with no JSON decoding, and any error is re-raised
immediately. -/
def HttpClient.download (c : HttpClient) (fetchO : Nat → FetchResult)
    (endpoint : String) (cfg : CallConfig) : DownloadCall :=
  let url := c.baseURL ++ endpoint
  let options0 : RequestInit :=
    { method := "GET"
      headers := plainHeaders c.authToken cfg.headers
      body := .null
      credentials := credOr cfg.credentials
      signal := none }
  let options := c.applyRequestInterceptors options0
  match fetchO 0 with
  | .networkError msg =>
    ⟨url, options, [.set 0, .clear 0], [0], .error (.transport msg)⟩
  | .response resp =>
    let r := c.applyResponseInterceptors resp
    if r.ok then ⟨url, options, [.set 0, .clear 0], [0], .ok r.bodyBytes⟩
    else
      ⟨url, options, [.set 0, .clear 0, .clear 0], [0],
        .error (HttpClient.handleError r)⟩

/-- Timer-discipline check over an event log: scans the log tracking the
at-most-one armed timer; arming a new timer while another is still armed
is a violation (`none`); disarming is idempotent.  Returns the final
armed-timer state when the whole log is disciplined. -/
def timersRun : List TEvent → Option Nat → Option (Option Nat)
  | [], st => some st
  | .set a :: rest, none => timersRun rest (some a)
  | .set _ :: _, some _ => none
  | .clear a :: rest, some b => timersRun rest (if a = b then none else some b)
  | .clear _ :: rest, none => timersRun rest none

/-- A log is timer-safe when it is disciplined and ends with no timer
armed: every armed timer is disarmed before the next one is armed and
before the log ends. -/
def timersSafe (log : List TEvent) : Prop :=
  timersRun log none = some none

/-! Concrete transports, codecs and clients used to evaluate the
development on closed inputs. -/

/-- Transport oracle that fails every attempt with the same native error. -/
def fetchFail : Nat → FetchResult := fun _ => .networkError "boom"

/-- A plain success response with body bytes `[42]`. -/
def respW : NetResponse := ⟨200, "OK", "http://a/x", [("h", "v")], [42]⟩

/-- Transport oracle failing on attempt 0 and completing with `respW`
afterwards. -/
def fetchSecond : Nat → FetchResult :=
  fun a => if a = 0 then .networkError "e0" else .response respW

/-- JSON codec stub: decodes body `[42]` to `true`, fails elsewhere. -/
def parse42 : List Nat → Option JVal :=
  fun bs => if bs = [42] then some (.jbool true) else none

/-- JSON codec stub that decodes every body to `null`. -/
def parseAny : List Nat → Option JVal := fun _ => some .jnull

/-- Serializer stub returning a fixed string. -/
def strS : JVal → String := fun _ => "S"

/-- Serializer stub returning the serialization of `0`. -/
def strZero : JVal → String := fun _ => "0"

/-- A concrete file for `upload`. -/
def fileW : JFile := ⟨"f.txt", [1, 2, 3]⟩

/-- A freshly constructed client with three retries. -/
def cW : HttpClient := HttpClient.new "http://a" 5000 3

/-- The client `cW` after `setAuthToken('T')`. -/
def cTok : HttpClient := { cW with authToken := some "T" }

/-- The client `cW` after `setAuthToken('')`. -/
def cTokEmpty : HttpClient := { cW with authToken := some "" }

/-- A client constructed with retry count 0. -/
def cZero : HttpClient := HttpClient.new "http://a" 5000 0

/-- A success response whose body bytes spell the JSON text `"{}"`. -/
def respJson : NetResponse := ⟨200, "OK", "http://a/d", [], [123, 125]⟩

/-- Transport oracle always completing with `respJson`. -/
def fetchJson : Nat → FetchResult := fun _ => .response respJson

/-- JSON codec stub decoding the bytes of `"{}"` to the empty object. -/
def parseObj : List Nat → Option JVal :=
  fun bs => if bs = [123, 125] then some (.jobj []) else none

/-- A loop step that always raises an HTTP 404 error. -/
def stepHttp404 : Nat → List TEvent × Except HErr HttpResponse :=
  fun _ => ([], .error (.http ⟨404, "Not Found", "http://a/x"⟩))

/-! Helper lemmas on header objects, the retry loop and the timer log. -/

theorem getHeader_setHeader (hs : HeaderMap) (k v : String) :
    getHeader (setHeader hs k v) k = some v := by
  induction hs with
  | nil => simp [setHeader, hasKey, getHeader]
  | cons p rest ih =>
    by_cases hpk : p.1 = k
    · have hk : hasKey (p :: rest) k = true := by simp [hasKey, hpk]
      simp [setHeader, hk, getHeader, hpk]
    · cases hrest : hasKey rest k with
      | true =>
        have hk : hasKey (p :: rest) k = true := by simp [hasKey, hrest]
        simp only [setHeader, hk, if_true, List.map_cons, getHeader, hpk,
          if_neg hpk, if_false]
        simp only [setHeader, hrest, if_true] at ih
        simpa [hpk] using ih
      | false =>
        have hk : hasKey (p :: rest) k = false := by
          simp [hasKey, hpk, hrest]
        simp only [setHeader, hk, Bool.false_eq_true, if_false,
          List.cons_append, getHeader, if_neg hpk]
        simp only [setHeader, hrest, Bool.false_eq_true, if_false] at ih
        exact ih

theorem requestLoop_allFail (step : Nat → List TEvent × Except HErr HttpResponse)
    (E : Nat → HErr) :
    ∀ n a, 1 ≤ n → (∀ i, i < n → (step (a + i)).2 = .error (E (a + i))) →
    (requestLoop step n a).trace = List.range' a n ∧
    (requestLoop step n a).outcome = some (.error (E (a + n - 1))) := by
  intro n
  induction n with
  | zero => intro a h; omega
  | succ m ih =>
    intro a _ hfail
    have h0 : (step a).2 = .error (E a) := by
      simpa using hfail 0 (Nat.succ_pos m)
    cases hs : step a with
    | mk ev res =>
      rw [hs] at h0
      simp only at h0
      subst h0
      cases m with
      | zero => simp [requestLoop, hs, List.range'_one]
      | succ m2 =>
        have hrec := ih (a + 1) (Nat.succ_pos m2) (by
          intro i hi
          have := hfail (i + 1) (by omega)
          have hidx : a + (i + 1) = a + 1 + i := by omega
          rwa [hidx] at this)
        simp only [requestLoop, hs, Nat.succ_ne_zero, if_false]
        constructor
        · rw [List.range'_succ]
          simpa using hrec.1
        · have hidx : a + 1 + (m2 + 1) - 1 = a + (m2 + 1 + 1) - 1 := by omega
          rw [← hidx]
          simpa using hrec.2

theorem requestLoop_succeed (step : Nat → List TEvent × Except HErr HttpResponse)
    (r : HttpResponse) :
    ∀ k n a, k < n →
    (∀ i, i < k → ∃ e, (step (a + i)).2 = .error e) →
    (step (a + k)).2 = .ok r →
    (requestLoop step n a).trace = List.range' a (k + 1) ∧
    (requestLoop step n a).outcome = some (.ok r) := by
  intro k
  induction k with
  | zero =>
    intro n a hk _ hok
    obtain ⟨m, rfl⟩ : ∃ m, n = m + 1 := ⟨n - 1, by omega⟩
    simp only [Nat.add_zero] at hok
    cases hs : step a with
    | mk ev res =>
      rw [hs] at hok
      simp only at hok
      subst hok
      simp [requestLoop, hs, List.range'_one]
  | succ k2 ih =>
    intro n a hk hfail hok
    obtain ⟨m, rfl⟩ : ∃ m, n = m + 1 := ⟨n - 1, by omega⟩
    obtain ⟨e0, he0⟩ := hfail 0 (Nat.succ_pos k2)
    simp only [Nat.add_zero] at he0
    cases hs : step a with
    | mk ev res =>
      rw [hs] at he0
      simp only at he0
      subst he0
      have hm : m ≠ 0 := by omega
      have hrec := ih m (a + 1) (by omega) (by
        intro i hi
        obtain ⟨e, he⟩ := hfail (i + 1) (by omega)
        exact ⟨e, by rwa [show a + (i + 1) = a + 1 + i by omega] at he⟩)
        (by rwa [show a + (k2 + 1) = a + 1 + k2 by omega] at hok)
      simp only [requestLoop, hs, hm, if_false]
      constructor
      · rw [List.range'_succ]
        simpa using hrec.1
      · simpa using hrec.2

theorem timersRun_append (xs : List TEvent) :
    ∀ ys st, timersRun (xs ++ ys) st =
      match timersRun xs st with
      | some st2 => timersRun ys st2
      | none => none := by
  induction xs with
  | nil => intro ys st; simp [timersRun]
  | cons x rest ih =>
    intro ys st
    cases x with
    | set a =>
      cases st with
      | none => simpa [timersRun] using ih ys (some a)
      | some b => simp [timersRun]
    | clear a =>
      cases st with
      | none => simpa [timersRun] using ih ys none
      | some b =>
        by_cases hab : a = b
        · simpa [timersRun, hab] using ih ys none
        · simpa [timersRun, hab] using ih ys (some b)

theorem attemptRun_events_safe (c : HttpClient) (parse : List Nat → Option JVal)
    (fetchO : Nat → FetchResult) (a : Nat) :
    timersRun (attemptRun c parse fetchO a).1 none = some none := by
  unfold attemptRun
  cases fetchO a with
  | networkError msg => simp [timersRun]
  | response resp =>
    by_cases hok : (c.applyResponseInterceptors resp).ok
    · cases hp : HttpClient.handleResponse parse (c.applyResponseInterceptors resp) with
      | ok hr => simp [hok, hp, timersRun]
      | error e => simp [hok, hp, timersRun]
    · simp [hok, timersRun]

theorem requestLoop_events_safe
    (step : Nat → List TEvent × Except HErr HttpResponse)
    (hstep : ∀ a, timersRun (step a).1 none = some none) :
    ∀ n a, timersRun (requestLoop step n a).events none = some none := by
  intro n
  induction n with
  | zero => intro a; simp [requestLoop, timersRun]
  | succ m ih =>
    intro a
    cases hs : step a with
    | mk ev res =>
      have hev : timersRun ev none = some none := by
        have := hstep a
        rwa [hs] at this
      cases res with
      | ok r => simpa [requestLoop, hs] using hev
      | error e =>
        by_cases hm : m = 0
        · simpa [requestLoop, hs, hm] using hev
        · simp only [requestLoop, hs, hm, if_false]
          rw [timersRun_append, hev]
          exact ih (a + 1)

/-! Claim theorems. -/

/-- C1: for every configured retry count R ≥ 1, a `request` whose every
attempt raises an error performs exactly R transport attempts (attempts
0 … R−1, in order) and then raises the error of the last attempt to the
caller; the `get`/`post`/`put`/`delete` wrappers are thin projections
onto `request`. -/
theorem c1_all_attempts_fail (c : HttpClient) (fetchO : Nat → FetchResult)
    (stringify : JVal → String) (parse : List Nat → Option JVal)
    (method endpoint : String) (data : JVal) (cfg : CallConfig) (E : Nat → HErr)
    (hR : 1 ≤ c.retries)
    (hfail : ∀ i, i < c.retries → (attemptRun c parse fetchO i).2 = .error (E i)) :
    (c.request fetchO stringify parse method endpoint data cfg).trace =
      List.range c.retries ∧
    (c.request fetchO stringify parse method endpoint data cfg).outcome =
      some (.error (E (c.retries - 1))) ∧
    c.get fetchO stringify parse endpoint cfg =
      c.request fetchO stringify parse "GET" endpoint .jnull cfg ∧
    c.post fetchO stringify parse endpoint data cfg =
      c.request fetchO stringify parse "POST" endpoint data cfg ∧
    c.put fetchO stringify parse endpoint data cfg =
      c.request fetchO stringify parse "PUT" endpoint data cfg ∧
    c.delete fetchO stringify parse endpoint cfg =
      c.request fetchO stringify parse "DELETE" endpoint .jnull cfg := by
  have h := requestLoop_allFail (attemptRun c parse fetchO) E c.retries 0 hR
    (by intro i hi; simpa using hfail i hi)
  refine ⟨?_, ?_, rfl, rfl, rfl, rfl⟩
  · simpa [HttpClient.request, List.range_eq_range'] using h.1
  · simpa [HttpClient.request] using h.2

/-- C1 witness: a client with 3 retries against a transport failing every
attempt performs attempts 0, 1, 2 and raises the transport error. -/
theorem c1_all_attempts_fail_witness :
    (cW.request fetchFail strS parseAny "GET" "/x" .jnull CallConfig.empty).trace =
      List.range 3 ∧
    (cW.request fetchFail strS parseAny "GET" "/x" .jnull CallConfig.empty).outcome =
      some (.error (.transport "boom")) := by
  have h := c1_all_attempts_fail cW fetchFail strS parseAny "GET" "/x" .jnull
    CallConfig.empty (fun _ => .transport "boom") (by decide) (fun i _ => rfl)
  exact ⟨h.1, h.2.1⟩

/-- C2: a `request` whose first K−1 attempts raise an error and whose
K-th attempt completes with a success-range status and a JSON-decodable
body performs exactly attempts 0 … K−1 and returns the decoded body
wrapped with the (post-interceptor) response's status and headers. -/
theorem c2_success_at_attempt_k (c : HttpClient) (fetchO : Nat → FetchResult)
    (stringify : JVal → String) (parse : List Nat → Option JVal)
    (method endpoint : String) (data : JVal) (cfg : CallConfig)
    (resp : NetResponse) (v : JVal) (k : Nat)
    (hk1 : 1 ≤ k) (hkR : k ≤ c.retries)
    (hfail : ∀ i, i < k - 1 → ∃ e, (attemptRun c parse fetchO i).2 = .error e)
    (hfetch : fetchO (k - 1) = .response resp)
    (hok : (c.applyResponseInterceptors resp).ok = true)
    (hparse : parse (c.applyResponseInterceptors resp).bodyBytes = some v) :
    (c.request fetchO stringify parse method endpoint data cfg).trace =
      List.range k ∧
    (c.request fetchO stringify parse method endpoint data cfg).outcome =
      some (.ok ⟨v, (c.applyResponseInterceptors resp).status,
        (c.applyResponseInterceptors resp).headers⟩) := by
  have hstep : (attemptRun c parse fetchO (k - 1)).2 =
      .ok ⟨v, (c.applyResponseInterceptors resp).status,
        (c.applyResponseInterceptors resp).headers⟩ := by
    unfold attemptRun
    rw [hfetch]
    simp [hok, HttpClient.handleResponse, hparse]
  have h := requestLoop_succeed (attemptRun c parse fetchO) _ (k - 1) c.retries 0
    (by omega) (by intro i hi; simpa using hfail i hi) (by simpa using hstep)
  have hk : k - 1 + 1 = k := by omega
  constructor
  · have h1 := h.1
    rw [hk] at h1
    simpa [HttpClient.request, List.range_eq_range'] using h1
  · simpa [HttpClient.request] using h.2

/-- C2 witness: with 3 retries, a transport failing attempt 0 and
succeeding on attempt 1 with a decodable 200 response yields exactly
attempts 0, 1 and the wrapped decoded body. -/
theorem c2_success_at_attempt_k_witness :
    (cW.request fetchSecond strS parse42 "GET" "/x" .jnull CallConfig.empty).trace =
      List.range 2 ∧
    (cW.request fetchSecond strS parse42 "GET" "/x" .jnull CallConfig.empty).outcome =
      some (.ok ⟨.jbool true, 200, [("h", "v")]⟩) := by
  have h := c2_success_at_attempt_k cW fetchSecond strS parse42 "GET" "/x" .jnull
    CallConfig.empty respW (.jbool true) 2 (by omega) (by decide)
    (by intro i hi; interval_cases i; exact ⟨.transport "e0", rfl⟩) rfl rfl rfl
  exact ⟨h.1, h.2⟩

/-- C3: the retry loop treats every error kind identically: while
iterations remain, any raised error (transport, or HTTP status error of
any code) leads to the next attempt with the same continuation, and on
the last iteration the error is re-raised to the caller unmodified;
`request`'s outcome is exactly this loop's outcome. -/
theorem c3_uniform_retry (step : Nat → List TEvent × Except HErr HttpResponse)
    (n a : Nat) (e : HErr) (he : (step a).2 = .error e) :
    ((requestLoop step (n + 2) a).outcome =
        (requestLoop step (n + 1) (a + 1)).outcome ∧
      (requestLoop step (n + 2) a).trace =
        a :: (requestLoop step (n + 1) (a + 1)).trace) ∧
    (requestLoop step 1 a).outcome = some (.error e) ∧
    (∀ (c : HttpClient) (fetchO : Nat → FetchResult) (stringify : JVal → String)
      (parse : List Nat → Option JVal) (method endpoint : String) (data : JVal)
      (cfg : CallConfig),
      (HttpClient.request c fetchO stringify parse method endpoint data cfg).outcome =
        (requestLoop (attemptRun c parse fetchO) c.retries 0).outcome) := by
  cases hs : step a with
  | mk ev res =>
    rw [hs] at he
    simp only at he
    subst he
    refine ⟨⟨?_, ?_⟩, ?_, fun _ _ _ _ _ _ _ _ => rfl⟩
    · simp [requestLoop, hs]
    · simp [requestLoop, hs]
    · simp [requestLoop, hs]

/-- C3 witness: an HTTP 404 error is re-raised unmodified when no
iterations remain, and with two iterations remaining the loop proceeds
to the next attempt. -/
theorem c3_uniform_retry_witness :
    (requestLoop stepHttp404 1 0).outcome =
      some (.error (.http ⟨404, "Not Found", "http://a/x"⟩)) ∧
    (requestLoop stepHttp404 2 0).trace = 0 :: (requestLoop stepHttp404 1 1).trace := by
  have h := c3_uniform_retry stepHttp404 0 0 (.http ⟨404, "Not Found", "http://a/x"⟩) rfl
  exact ⟨h.2.1, h.1.2⟩

/-- C4 counterexample: after `setAuthToken('')` the auth token has been
set, yet — because the source guards the header write with the truthiness
check `if (this.authToken)` and the empty string is falsy — the dispatched
descriptor carries no Authorization header at all, contradicting the claim
that it would carry `Authorization: Bearer <token>`. -/
theorem c4_auth_header_counterexample :
    (cTokEmpty.authToken = some "") ∧
    getHeader (cTokEmpty.request fetchFail strS parseAny "GET" "/x" .jnull
      CallConfig.empty).options.headers "Authorization" = none ∧
    (none : Option String) ≠ some ("Bearer " ++ "") := by
  refine ⟨rfl, rfl, by decide⟩

/-- C4 (amended): whenever a nonempty auth token has been set, the
descriptor dispatched by `request` (hence by the `get`/`post`/`put`/
`delete` wrappers), by `upload` and by `download` carries the header
`Authorization: Bearer <token>`; since this header is written after the
caller-supplied headers are merged, a caller-supplied Authorization
header cannot override it (the caller configuration is universally
quantified). -/
theorem c4_auth_header (c : HttpClient) (t : String)
    (htok : c.authToken = some t) (ht : t ≠ "")
    (hri : c.requestInterceptors = []) :
    (∀ (fetchO : Nat → FetchResult) (stringify : JVal → String)
      (parse : List Nat → Option JVal) (method endpoint : String)
      (data : JVal) (cfg : CallConfig),
      getHeader (c.request fetchO stringify parse method endpoint data cfg).options.headers
        "Authorization" = some ("Bearer " ++ t)) ∧
    (∀ (fetchO : Nat → FetchResult) (parse : List Nat → Option JVal)
      (endpoint : String) (file : JFile) (cfg : CallConfig),
      getHeader (c.upload fetchO parse endpoint file cfg).options.headers
        "Authorization" = some ("Bearer " ++ t)) ∧
    (∀ (fetchO : Nat → FetchResult) (endpoint : String) (cfg : CallConfig),
      getHeader (c.download fetchO endpoint cfg).options.headers
        "Authorization" = some ("Bearer " ++ t)) := by
  refine ⟨?_, ?_, ?_⟩
  · intro fetchO stringify parse method endpoint data cfg
    simp only [HttpClient.request, HttpClient.applyRequestInterceptors, hri,
      List.foldl_nil, buildOptions, buildHeaders, htok, if_neg ht]
    exact getHeader_setHeader _ _ _
  · intro fetchO parse endpoint file cfg
    simp only [HttpClient.upload, HttpClient.applyRequestInterceptors, hri,
      List.foldl_nil, plainHeaders, htok, if_neg ht]
    exact getHeader_setHeader _ _ _
  · intro fetchO endpoint cfg
    simp only [HttpClient.download, HttpClient.applyRequestInterceptors, hri,
      List.foldl_nil, plainHeaders, htok, if_neg ht]
    cases fetchO 0 with
    | networkError msg => exact getHeader_setHeader _ _ _
    | response resp =>
      by_cases hok : (c.applyResponseInterceptors resp).ok <;>
        simp only [hok, Bool.false_eq_true, if_true, if_false] <;>
        exact getHeader_setHeader _ _ _

/-- C4 witness: with token `T` set and a caller-supplied Authorization
header, the dispatched descriptor still carries `Bearer T`. -/
theorem c4_auth_header_witness :
    getHeader (cTok.request fetchFail strS parseAny "GET" "/x" .jnull
      ⟨[("Authorization", "evil")], none⟩).options.headers "Authorization" =
      some ("Bearer " ++ "T") :=
  (c4_auth_header cTok "T" rfl (by decide) rfl).1 fetchFail strS parseAny
    "GET" "/x" .jnull ⟨[("Authorization", "evil")], none⟩

/-- C5: both interceptor chains compose in registration order, left to
right — for registered interceptors `[f, g]` the dispatched descriptor is
`g (f d)` for the initial descriptor `d`, and the response handed to
status classification and decoding is `g (f r)` for the received response
`r`. -/
theorem c5_interceptor_composition :
    (∀ (c : HttpClient) (f g : RequestInit → RequestInit) (d : RequestInit),
      HttpClient.applyRequestInterceptors
        { c with requestInterceptors := [f, g] } d = g (f d)) ∧
    (∀ (c : HttpClient) (f g : NetResponse → NetResponse) (r : NetResponse),
      HttpClient.applyResponseInterceptors
        { c with responseInterceptors := [f, g] } r = g (f r)) ∧
    (∀ (c : HttpClient) (f g : RequestInit → RequestInit)
      (fetchO : Nat → FetchResult) (stringify : JVal → String)
      (parse : List Nat → Option JVal) (method endpoint : String)
      (data : JVal) (cfg : CallConfig),
      (({ c with requestInterceptors := [f, g] } : HttpClient).request
          fetchO stringify parse method endpoint data cfg).options =
        g (f (buildOptions c stringify method data cfg))) := by
  exact ⟨fun _ _ _ _ => rfl, fun _ _ _ _ => rfl,
    fun _ _ _ _ _ _ _ _ _ _ => rfl⟩

/-- C6 counterexample: `0` is a present body value, yet — because the
source selects the body with the truthiness test `data ? JSON.stringify(data)
: null` and `0` is falsy — the dispatched body is `null`, not the JSON
serialization `"0"` of the value. -/
theorem c6_body_counterexample :
    (cW.request fetchFail strZero parseAny "POST" "/p" (.jnum 0)
      CallConfig.empty).options.body = ReqBody.null ∧
    ReqBody.null ≠ ReqBody.str (strZero (.jnum 0)) := by
  exact ⟨rfl, by decide⟩

/-- C6 (amended): for every call to `request` (and the `post`/`put`
wrappers) with a truthy body value, the body field of the dispatched
descriptor equals the JSON serialization of that value; when the body is
absent or falsy (`null`, `false`, `0`, `""`), the dispatched body is
null. -/
theorem c6_body_serialization (c : HttpClient) (fetchO : Nat → FetchResult)
    (stringify : JVal → String) (parse : List Nat → Option JVal)
    (method endpoint : String) (data : JVal) (cfg : CallConfig)
    (hri : c.requestInterceptors = []) :
    (data.truthy = true →
      (c.request fetchO stringify parse method endpoint data cfg).options.body =
        .str (stringify data)) ∧
    (data.truthy = false →
      (c.request fetchO stringify parse method endpoint data cfg).options.body =
        .null) := by
  constructor <;> intro h <;>
    simp [HttpClient.request, HttpClient.applyRequestInterceptors, hri,
      buildOptions, h]

/-- C6 witness: a truthy body value is dispatched as its JSON
serialization. -/
theorem c6_body_serialization_witness :
    (cW.request fetchFail strS parseAny "POST" "/p" (.jstr "hi")
      CallConfig.empty).options.body = ReqBody.str "S" :=
  (c6_body_serialization cW fetchFail strS parseAny "POST" "/p" (.jstr "hi")
    CallConfig.empty rfl).1 rfl

/-- C7: `upload` performs exactly one transport attempt (attempt 0)
regardless of the configured retry count; on any error during that
attempt — transport failure, timeout abort or non-success status — the
error is re-raised to the caller immediately, and on success the wrapped
response is returned. -/
theorem c7_upload_single_attempt (c : HttpClient) (fetchO : Nat → FetchResult)
    (parse : List Nat → Option JVal) (endpoint : String) (file : JFile)
    (cfg : CallConfig) :
    (c.upload fetchO parse endpoint file cfg).trace = [0] ∧
    (∀ n, ({ c with retries := n } : HttpClient).upload fetchO parse endpoint file cfg =
      c.upload fetchO parse endpoint file cfg) ∧
    (∀ e, (attemptRun c parse fetchO 0).2 = .error e →
      (c.upload fetchO parse endpoint file cfg).outcome = some (.error e)) ∧
    (∀ r, (attemptRun c parse fetchO 0).2 = .ok r →
      (c.upload fetchO parse endpoint file cfg).outcome = some (.ok r)) := by
  refine ⟨rfl, fun n => rfl, ?_, ?_⟩
  · intro e he
    show some (attemptRun c parse fetchO 0).2 = some (.error e)
    rw [he]
  · intro r hr
    show some (attemptRun c parse fetchO 0).2 = some (.ok r)
    rw [hr]

/-- C7 witness: against a failing transport, `upload` makes exactly
attempt 0 and re-raises the transport error. -/
theorem c7_upload_single_attempt_witness :
    (cW.upload fetchFail parseAny "/u" fileW CallConfig.empty).trace = [0] ∧
    (cW.upload fetchFail parseAny "/u" fileW CallConfig.empty).outcome =
      some (.error (.transport "boom")) := by
  have h := c7_upload_single_attempt cW fetchFail parseAny "/u" fileW
    CallConfig.empty
  exact ⟨h.1, h.2.2.1 (.transport "boom") rfl⟩

/-- C8: on a success-range status, `download` returns the response body
as raw bytes — the bytes of the (post-interceptor) response, and exactly
the received bytes when no response interceptor is registered — applying
no JSON decoding, for every body including one the JSON codec could
decode. -/
theorem c8_download_raw_bytes (c : HttpClient) (fetchO : Nat → FetchResult)
    (endpoint : String) (cfg : CallConfig) (resp : NetResponse)
    (hfetch : fetchO 0 = .response resp)
    (hok : (c.applyResponseInterceptors resp).ok = true) :
    (c.download fetchO endpoint cfg).outcome =
      .ok (c.applyResponseInterceptors resp).bodyBytes ∧
    (∀ (parse : List Nat → Option JVal) (v : JVal),
      parse (c.applyResponseInterceptors resp).bodyBytes = some v →
      (c.download fetchO endpoint cfg).outcome =
        .ok (c.applyResponseInterceptors resp).bodyBytes) ∧
    (c.responseInterceptors = [] →
      (c.download fetchO endpoint cfg).outcome = .ok resp.bodyBytes) := by
  have hmain : (c.download fetchO endpoint cfg).outcome =
      .ok (c.applyResponseInterceptors resp).bodyBytes := by
    simp [HttpClient.download, hfetch, hok]
  refine ⟨hmain, fun _ _ _ => hmain, ?_⟩
  intro hre
  rw [hmain]
  simp [HttpClient.applyResponseInterceptors, hre]

/-- C8 witness: a 200 response whose body is the JSON text of the empty
object (which the codec does decode) is returned by `download` as its raw
bytes. -/
theorem c8_download_raw_bytes_witness :
    (cW.download fetchJson "/d" CallConfig.empty).outcome = .ok [123, 125] ∧
    parseObj respJson.bodyBytes = some (.jobj []) := by
  have h := c8_download_raw_bytes cW fetchJson "/d" CallConfig.empty respJson
    rfl (by decide)
  exact ⟨h.2.2 rfl, rfl⟩

/-- C9: in every run of `request` — and likewise of `upload` and
`download` — each attempt arms a fresh timer, and that timer is disarmed
on both the success path and the failure path before control leaves the
attempt: the timer-event log never arms a new timer while an earlier
attempt's timer is still armed, and ends with no timer armed, so a timer
armed during attempt K cannot fire against any attempt after K. -/
theorem c9_timer_per_attempt (c : HttpClient) (fetchO : Nat → FetchResult)
    (stringify : JVal → String) (parse : List Nat → Option JVal)
    (method endpoint : String) (data : JVal) (cfg : CallConfig)
    (file : JFile) :
    timersSafe (c.request fetchO stringify parse method endpoint data cfg).events ∧
    timersSafe (c.upload fetchO parse endpoint file cfg).events ∧
    timersSafe (c.download fetchO endpoint cfg).events := by
  refine ⟨?_, ?_, ?_⟩
  · exact requestLoop_events_safe (attemptRun c parse fetchO)
      (attemptRun_events_safe c parse fetchO) c.retries 0
  · exact attemptRun_events_safe c parse fetchO 0
  · unfold timersSafe HttpClient.download
    cases fetchO 0 with
    | networkError msg => simp [timersRun]
    | response resp =>
      by_cases hok : (c.applyResponseInterceptors resp).ok
      · simp [hok, timersRun]
      · simp [hok, timersRun]

/-- C10: a client constructed with retry count 0 performs zero transport
attempts on `request` (and its wrappers): the loop body never runs, no
timer is armed and the call resolves with no value and no raised error
(outcome `none`, the promise resolving `undefined`). -/
theorem c10_zero_retries_undefined (c : HttpClient) (fetchO : Nat → FetchResult)
    (stringify : JVal → String) (parse : List Nat → Option JVal)
    (method endpoint : String) (data : JVal) (cfg : CallConfig)
    (h : c.retries = 0) :
    (c.request fetchO stringify parse method endpoint data cfg).trace = [] ∧
    (c.request fetchO stringify parse method endpoint data cfg).outcome = none ∧
    (c.request fetchO stringify parse method endpoint data cfg).events = [] := by
  simp [HttpClient.request, h, requestLoop]

/-- C10 witness: `new HttpClient(url, 5000, 0)` resolves `undefined` with
no attempt. -/
theorem c10_zero_retries_undefined_witness :
    (cZero.request fetchFail strS parseAny "GET" "/x" .jnull CallConfig.empty).trace = [] ∧
    (cZero.request fetchFail strS parseAny "GET" "/x" .jnull CallConfig.empty).outcome = none ∧
    (cZero.request fetchFail strS parseAny "GET" "/x" .jnull CallConfig.empty).events = [] :=
  c10_zero_retries_undefined cZero fetchFail strS parseAny "GET" "/x" .jnull
    CallConfig.empty rfl
